import Mathlib

/-!
Verification of `adept/modules/spatial.py`.

The file shallowly embeds the two modules of the source file
(`Residual2DPreact`, `ConvLSTMCellLayerNorm`) and the helper
`calc_conv_output_dim`.

Modelling conventions:
* A torch tensor of shape `(B, C, H, W)` is a `Tensor`: the four shape
  numbers plus a total data function on indices.  Scalars are `ℚ`
  (exact rationals stand in for the floating-point numbers of the code;
  none of the verified properties depends on rounding).
* `nn.Conv2d` is embedded with its real arithmetic (cross-correlation with
  zero padding, dilation 1 as used by the source) and the standard output
  dimension formula, which is exactly `calc_conv_output_dim`.
* `nn.BatchNorm2d` and `nn.LayerNorm` are external library layers with
  learned parameters; they are embedded as abstract shape-preserving
  tensor transforms supplied at construction time.
* The scalar nonlinearities `sigmoid` and `tanh` of the library are
  likewise abstract scalar functions passed to `forward`; `F.relu` is
  concrete (`max 0`).
* `ConvLSTMCellLayerNorm.forward` uses in-place operations (`sigmoid_`,
  `tanh_`, `+=`) on intermediate tensors, so it is embedded against an
  explicit heap of tensor storages: reads go through the heap, fresh
  results are allocated, and in-place operations overwrite the storage of
  their receiver.  This lets us state and prove the frame property (the
  arguments' storages are untouched) as well as functional correctness.
-/

/-- A torch tensor `(batch, chan, height, width)` with a total data
function; out-of-range indices are irrelevant to every statement below. -/
structure Tensor where
  batch : Nat
  chan : Nat
  height : Nat
  width : Nat
  data : Nat → Nat → Nat → Nat → ℚ

instance : Inhabited Tensor := ⟨⟨0, 0, 0, 0, fun _ _ _ _ => 0⟩⟩

/-- Weight array of a 2d convolution, indexed `[out_chan][in_chan][ki][kj]`. -/
abbrev WeightFn : Type := Nat → Nat → Nat → Nat → ℚ

/-- Elementwise map of a scalar function (e.g. `sigmoid_`, `tanh_`). -/
def tmap (f : ℚ → ℚ) (t : Tensor) : Tensor :=
  { t with data := fun b c i j => f (t.data b c i j) }

/-- Elementwise tensor addition (`+`); torch requires equal shapes, the
result carries the left operand's shape. -/
def tAdd (a b : Tensor) : Tensor :=
  { a with data := fun bt c i j => a.data bt c i j + b.data bt c i j }

/-- Elementwise tensor multiplication (`torch.mul`). -/
def tMul (a b : Tensor) : Tensor :=
  { a with data := fun bt c i j => a.data bt c i j * b.data bt c i j }

/-- `F.relu`: elementwise `max 0`. -/
def tRelu (t : Tensor) : Tensor := tmap (fun q => max q 0) t

/-- `calc_conv_output_dim` from the source, on integers.  Python `//` is
floor division, i.e. `Int.fdiv`. -/
def calc_conv_output_dim (dim_size kernel_size stride padding dilation : ℤ) : ℤ :=
  let numerator := dim_size + 2 * padding - dilation * (kernel_size - 1) - 1
  numerator.fdiv stride + 1

/-- The spatial size produced by a convolution, as the source precomputes
it (`hh_input_size = calc_conv_output_dim(input_size[1], kernel_size,
stride, padding, 1)`), read back as a natural number. -/
def hh_input_size (dim_size kernel_size stride padding : Nat) : Nat :=
  (calc_conv_output_dim dim_size kernel_size stride padding 1).toNat

/-- `nn.Conv2d` with square kernels, dilation 1 (the only form the source
uses).  `weight` and `bias` hold the layer's learned parameters. -/
structure Conv2d where
  in_channels : Nat
  out_channels : Nat
  kernel_size : Nat
  stride : Nat
  padding : Nat
  weight : WeightFn
  bias : Option (Nat → ℚ)

instance : Inhabited Conv2d :=
  ⟨⟨0, 0, 0, 1, 0, fun _ _ _ _ => 0, none⟩⟩

/-- Read a tensor entry with zero padding outside the spatial bounds. -/
def padRead (t : Tensor) (b c : Nat) (i j : ℤ) : ℚ :=
  if 0 ≤ i ∧ i < (t.height : ℤ) ∧ 0 ≤ j ∧ j < (t.width : ℤ) then
    t.data b c i.toNat j.toNat
  else 0

/-- Output spatial dimension of a convolution layer. -/
def Conv2d.outDim (l : Conv2d) (n : Nat) : Nat :=
  hh_input_size n l.kernel_size l.stride l.padding

/-- Applying a convolution layer: torch's 2d cross-correlation with zero
padding and optional channel bias. -/
def Conv2d.apply (l : Conv2d) (x : Tensor) : Tensor where
  batch := x.batch
  chan := l.out_channels
  height := l.outDim x.height
  width := l.outDim x.width
  data := fun b o i j =>
    (match l.bias with
      | some bf => bf o
      | none => 0) +
    ∑ c ∈ Finset.range l.in_channels, ∑ ki ∈ Finset.range l.kernel_size,
      ∑ kj ∈ Finset.range l.kernel_size,
        l.weight o c ki kj *
          padRead x b c ((i : ℤ) * l.stride + ki - l.padding)
            ((j : ℤ) * l.stride + kj - l.padding)

/-- `nn.BatchNorm2d`: library layer with learned parameters, embedded as
an abstract tensor transform. -/
structure BatchNorm2d where
  apply : Tensor → Tensor

/-- `nn.LayerNorm`: library layer with learned parameters, embedded as an
abstract tensor transform; torch's layer norm always preserves the shape
of its argument, recorded by the four `pres_` fields. -/
structure LayerNorm where
  apply : Tensor → Tensor
  pres_batch : ∀ t, (apply t).batch = t.batch
  pres_chan : ∀ t, (apply t).chan = t.chan
  pres_height : ∀ t, (apply t).height = t.height
  pres_width : ∀ t, (apply t).width = t.width

/-- The identity instance of a layer norm (unit scale, zero shift,
variance formally one); used for concrete witnesses. -/
def idLN : LayerNorm :=
  ⟨fun t => t, fun _ => rfl, fun _ => rfl, fun _ => rfl, fun _ => rfl⟩

/-- `torch.chunk(t, 4, dim=1)`: the `k`-th of four equal channel groups.
In torch these are views into `t`'s storage; no write in the embedded
code ever targets them, so they are materialized eagerly. -/
def chunk4 (t : Tensor) (k : Nat) : Tensor :=
  { t with
    chan := t.chan / 4
    data := fun b c i j => t.data b (k * (t.chan / 4) + c) i j }

/-- Weight scaling `w.data.mul_(g)` applied at construction time:
initialize, then scale every weight entry by the gain. -/
def scaleW (g : ℚ) (w : WeightFn) : WeightFn :=
  fun o c i j => g * w o c i j

/-- `Residual2DPreact` from the source: two batch norms, two 3x3
convolutions without bias, and an optional projection convolution.  The
`projection` attribute exists exactly when `do_projection` was set. -/
structure Residual2DPreact where
  nb_in_chan : Nat
  nb_out_chan : Nat
  stride : Nat
  bn1 : BatchNorm2d
  conv1 : Conv2d
  bn2 : BatchNorm2d
  conv2 : Conv2d
  do_projection : Bool
  projection : Option Conv2d

/-- The projection convolution built inside `Residual2DPreact.__init__`:
`nn.Conv2d(nb_in_chan, nb_out_chan, 3, stride=stride, padding=1)` (bias
defaults to `True`), with its weight — and only its weight — scaled by
the relu gain. -/
def Residual2DPreact.mkProjection (nb_in_chan nb_out_chan stride : Nat)
    (wp : WeightFn) (bp : Nat → ℚ) (relu_gain : ℚ) : Conv2d :=
  { in_channels := nb_in_chan
    out_channels := nb_out_chan
    kernel_size := 3
    stride := stride
    padding := 1
    weight := scaleW relu_gain wp
    bias := some bp }

/-- `Residual2DPreact.__init__`.  The library supplies the
default-initialized weights `w1 w2 wp`, the default projection bias `bp`,
the batch-norm layers, and the constant `relu_gain =
nn.init.calculate_gain('relu')`; the constructor wires the layers, scales
the convolution weights in place, and creates the projection exactly when
`nb_in_chan != nb_out_chan or stride > 1`. -/
def Residual2DPreact.init (nb_in_chan nb_out_chan stride : Nat)
    (bn1 bn2 : BatchNorm2d) (w1 w2 wp : WeightFn) (bp : Nat → ℚ)
    (relu_gain : ℚ) : Residual2DPreact :=
  let do_projection := (nb_in_chan != nb_out_chan) || decide (stride > 1)
  { nb_in_chan := nb_in_chan
    nb_out_chan := nb_out_chan
    stride := stride
    bn1 := bn1
    conv1 :=
      { in_channels := nb_in_chan
        out_channels := nb_out_chan
        kernel_size := 3
        stride := stride
        padding := 1
        weight := scaleW relu_gain w1
        bias := none }
    bn2 := bn2
    conv2 :=
      { in_channels := nb_out_chan
        out_channels := nb_out_chan
        kernel_size := 3
        stride := 1
        padding := 1
        weight := scaleW relu_gain w2
        bias := none }
    do_projection := do_projection
    projection :=
      if do_projection then
        some (Residual2DPreact.mkProjection nb_in_chan nb_out_chan stride wp bp relu_gain)
      else none }

/-- `Residual2DPreact.forward`.  The source tests `self.do_projection`
and, in that case, reads the `self.projection` attribute, which the
constructor created exactly when the flag is set (`getD` stands for the
attribute access that cannot fail on a constructed module). -/
def Residual2DPreact.forward (m : Residual2DPreact) (x : Tensor) : Tensor :=
  let first := tRelu (m.bn1.apply x)
  let projection :=
    if m.do_projection then (m.projection.getD default).apply first
    else x
  let x1 := m.conv1.apply first
  let x2 := m.conv2.apply (tRelu (m.bn2.apply x1))
  tAdd x2 projection

/-- `ConvLSTMCellLayerNorm` from the source: input-to-hidden and
hidden-to-hidden convolutions (both without bias) and five layer norms
(one per gate plus one for the cell state). -/
structure ConvLSTMCellLayerNorm where
  input_size : Nat × Nat
  hidden_size : Nat
  forget_bias : ℚ
  hidden_padding : Nat
  ih : Conv2d
  hh : Conv2d
  ln_g_t : LayerNorm
  ln_i_t : LayerNorm
  ln_f_t : LayerNorm
  ln_o_t : LayerNorm
  ln_cell : LayerNorm

/-- `ConvLSTMCellLayerNorm.__init__`.  `input_size` is `(channels,
spatial size)`; the hidden-to-hidden padding is `int((kernel_size-1)/2)`;
the library supplies the default-initialized convolution weights and the
five layer-norm layers (each sized `[hidden_size, hh_input_size,
hh_input_size]` in the source). -/
def ConvLSTMCellLayerNorm.init (input_size : Nat × Nat)
    (hidden_size kernel_size stride padding : Nat) (forget_bias : ℚ)
    (w_ih w_hh : WeightFn)
    (lnG lnI lnF lnO lnC : LayerNorm) : ConvLSTMCellLayerNorm :=
  let hidden_padding := (kernel_size - 1) / 2
  { input_size := input_size
    hidden_size := hidden_size
    forget_bias := forget_bias
    hidden_padding := hidden_padding
    ih :=
      { in_channels := input_size.1
        out_channels := 4 * hidden_size
        kernel_size := kernel_size
        stride := stride
        padding := padding
        weight := w_ih
        bias := none }
    hh :=
      { in_channels := hidden_size
        out_channels := 4 * hidden_size
        kernel_size := kernel_size
        stride := 1
        padding := hidden_padding
        weight := w_hh
        bias := none }
    ln_g_t := lnG
    ln_i_t := lnI
    ln_f_t := lnF
    ln_o_t := lnO
    ln_cell := lnC }

/-- A heap of tensor storages: the storages allocated so far live at
ids `0, …, next-1`. -/
structure Heap where
  next : Nat
  store : Nat → Option Tensor

/-- Allocate a fresh storage holding `t` at id `next`. -/
def Heap.alloc (hp : Heap) (t : Tensor) : Heap :=
  { next := hp.next + 1
    store := fun i => if i = hp.next then some t else hp.store i }

/-- Overwrite the storage `sid` (an in-place torch operation on the
tensor living there). -/
def Heap.write (hp : Heap) (sid : Nat) (t : Tensor) : Heap :=
  { hp with store := fun i => if i = sid then some t else hp.store i }

/-- Read the tensor stored at `sid`. -/
def Heap.readT (hp : Heap) (sid : Nat) : Tensor :=
  (hp.store sid).getD default

/-- `ConvLSTMCellLayerNorm.forward`, embedded against the storage heap.
`sigmoid` and `tanh` are the library's scalar nonlinearities; `xr` and
`(hr, cr)` are the storages holding the input tensor and the previous
`(hidden, cell)` state.  Out-of-place library calls allocate fresh
storages; the in-place calls `sigmoid_()`, `+=` and `tanh_()` overwrite
the storage of their receiver — always one of the freshly allocated
layer-norm outputs.  Returns the final heap and the storages of
`(h_t, c_t)`. -/
def ConvLSTMCellLayerNorm.forward (m : ConvLSTMCellLayerNorm)
    (sigmoid tanh : ℚ → ℚ) (hp0 : Heap) (xr hr cr : Nat) :
    Heap × Nat × Nat :=
  -- h, c = hidden
  let x := hp0.readT xr
  let h := hp0.readT hr
  let c := hp0.readT cr
  -- i2h = self.ih(x); h2h = self.hh(h); preact = i2h + h2h
  let i2h := m.ih.apply x
  let hp1 := hp0.alloc i2h
  let h2h := m.hh.apply h
  let hp2 := hp1.alloc h2h
  let preact := tAdd i2h h2h
  let hp3 := hp2.alloc preact
  -- it, ft, ot, gt = torch.chunk(preact, 4, dim=1)  (views of preact)
  let it := chunk4 preact 0
  let ft := chunk4 preact 1
  let ot := chunk4 preact 2
  let gt := chunk4 preact 3
  -- i_t = self.ln_i_t(it).sigmoid_()
  let ir := hp3.next
  let hp4 := hp3.alloc (m.ln_i_t.apply it)
  let i_t := tmap sigmoid (m.ln_i_t.apply it)
  let hp5 := hp4.write ir i_t
  -- f_t = self.ln_f_t(ft)
  let fr := hp5.next
  let hp6 := hp5.alloc (m.ln_f_t.apply ft)
  -- if self.forget_bias != 0: f_t += self.forget_bias; f_t.sigmoid_()
  let f_t :=
    if m.forget_bias ≠ 0 then
      tmap sigmoid (tmap (fun q => q + m.forget_bias) (m.ln_f_t.apply ft))
    else m.ln_f_t.apply ft
  let hp7 :=
    if m.forget_bias ≠ 0 then
      (hp6.write fr (tmap (fun q => q + m.forget_bias) (m.ln_f_t.apply ft))).write fr f_t
    else hp6
  -- o_t = self.ln_o_t(ot).sigmoid_()
  let orr := hp7.next
  let hp8 := hp7.alloc (m.ln_o_t.apply ot)
  let o_t := tmap sigmoid (m.ln_o_t.apply ot)
  let hp9 := hp8.write orr o_t
  -- g_t = self.ln_g_t(gt).tanh_()
  let gr := hp9.next
  let hp10 := hp9.alloc (m.ln_g_t.apply gt)
  let g_t := tmap tanh (m.ln_g_t.apply gt)
  let hp11 := hp10.write gr g_t
  -- c_t = torch.mul(c, f_t) + torch.mul(i_t, g_t)   (not in place)
  let hp12 := hp11.alloc (tMul c f_t)
  let hp13 := hp12.alloc (tMul i_t g_t)
  let ct0 := tAdd (tMul c f_t) (tMul i_t g_t)
  let hp14 := hp13.alloc ct0
  -- c_t = self.ln_cell(c_t)
  let c_t := m.ln_cell.apply ct0
  let ctr := hp14.next
  let hp15 := hp14.alloc c_t
  -- h_t = torch.mul(o_t, c_t.tanh())   (tanh not in place)
  let hp16 := hp15.alloc (tmap tanh c_t)
  let h_t := tMul o_t (tmap tanh c_t)
  let htr := hp16.next
  let hp17 := hp16.alloc h_t
  (hp17, htr, ctr)

/-- The value-level denotation of `ConvLSTMCellLayerNorm.forward`: the
same computation on plain tensors, with the in-place operations read
functionally.  `forward_denotes` below proves that the heap-based
`forward` returns exactly these two tensors. -/
def ConvLSTMCellLayerNorm.pureStep (m : ConvLSTMCellLayerNorm)
    (sigmoid tanh : ℚ → ℚ) (x h c : Tensor) : Tensor × Tensor :=
  let preact := tAdd (m.ih.apply x) (m.hh.apply h)
  let i_t := tmap sigmoid (m.ln_i_t.apply (chunk4 preact 0))
  let f_t :=
    if m.forget_bias ≠ 0 then
      tmap sigmoid (tmap (fun q => q + m.forget_bias) (m.ln_f_t.apply (chunk4 preact 1)))
    else m.ln_f_t.apply (chunk4 preact 1)
  let o_t := tmap sigmoid (m.ln_o_t.apply (chunk4 preact 2))
  let g_t := tmap tanh (m.ln_g_t.apply (chunk4 preact 3))
  let c_t := m.ln_cell.apply (tAdd (tMul c f_t) (tMul i_t g_t))
  let h_t := tMul o_t (tmap tanh c_t)
  (h_t, c_t)

/-- The heap-based `forward` returns exactly the two tensors computed by
`pureStep` on the materialized arguments: no in-place operation leaks
into the results in either forget-bias branch. -/
theorem ConvLSTMCellLayerNorm.forward_denotes (m : ConvLSTMCellLayerNorm)
    (sigmoid tanh : ℚ → ℚ) (hp : Heap) (xr hr cr : Nat) :
    ((m.forward sigmoid tanh hp xr hr cr).1.readT (m.forward sigmoid tanh hp xr hr cr).2.1,
      (m.forward sigmoid tanh hp xr hr cr).1.readT (m.forward sigmoid tanh hp xr hr cr).2.2)
      = m.pureStep sigmoid tanh (hp.readT xr) (hp.readT hr) (hp.readT cr) := by
  by_cases hfb : m.forget_bias ≠ 0 <;>
    simp +arith [ConvLSTMCellLayerNorm.forward, ConvLSTMCellLayerNorm.pureStep,
      Heap.alloc, Heap.write, Heap.readT, hfb]

/-- Frame property of the heap-based `forward`: every storage that
existed before the call is untouched — all writes hit storages allocated
during the call. -/
theorem ConvLSTMCellLayerNorm.forward_frame (m : ConvLSTMCellLayerNorm)
    (sigmoid tanh : ℚ → ℚ) (hp : Heap) (xr hr cr : Nat) (sid : Nat)
    (hsid : sid < hp.next) :
    (m.forward sigmoid tanh hp xr hr cr).1.store sid = hp.store sid := by
  have h0 : sid ≠ hp.next := by omega
  have hk : ∀ k : Nat, sid ≠ hp.next + k := by omega
  by_cases hfb : m.forget_bias ≠ 0 <;>
    simp +arith [ConvLSTMCellLayerNorm.forward, Heap.alloc, Heap.write, hfb, h0, hk]

/-- Python floor division agrees with the mathematical floor of the exact
rational quotient, for positive divisors. -/
theorem fdiv_eq_floor (a s : ℤ) (hs : 0 < s) : a.fdiv s = ⌊(a : ℚ) / (s : ℚ)⌋ := by
  rw [Int.fdiv_eq_ediv _ hs.le]
  obtain ⟨n, rfl⟩ := Int.eq_ofNat_of_zero_le hs.le
  exact_mod_cast (Rat.floor_intCast_div_natCast a n).symm

/-- C2: for every positive `dim_size`, `kernel_size`, `stride`,
`padding`, `dilation`, `calc_conv_output_dim` equals
`floor((dim_size + 2*padding - dilation*(kernel_size-1) - 1) / stride) + 1`;
in particular `calc_conv_output_dim 10 3 1 1 1 = 10` and
`calc_conv_output_dim 10 3 2 1 1 = 5`. -/
theorem calc_conv_output_dim_formula :
    (∀ dim_size kernel_size stride padding dilation : ℤ,
      0 < dim_size → 0 < kernel_size → 0 < stride → 0 < padding → 0 < dilation →
      calc_conv_output_dim dim_size kernel_size stride padding dilation =
        ⌊((dim_size : ℚ) + 2 * padding - dilation * (kernel_size - 1) - 1) / stride⌋ + 1)
    ∧ calc_conv_output_dim 10 3 1 1 1 = 10 ∧ calc_conv_output_dim 10 3 2 1 1 = 5 := by
  refine ⟨fun d k s p dil _ _ hs _ _ => ?_, by decide, by decide⟩
  simp only [calc_conv_output_dim]
  rw [fdiv_eq_floor _ _ hs]
  congr 2
  push_cast
  ring

/-- Witness for C2: the general formula applied at the concrete input
`(7, 3, 1, 1, 1)`, with every positivity hypothesis discharged there. -/
theorem calc_conv_output_dim_formula_witness :
    (0 : ℤ) < 7 ∧
      calc_conv_output_dim 7 3 1 1 1 =
        ⌊((7 : ℚ) + 2 * 1 - 1 * (3 - 1) - 1) / 1⌋ + 1 :=
  ⟨by decide, calc_conv_output_dim_formula.1 7 3 1 1 1 (by decide) (by decide)
    (by decide) (by decide) (by decide)⟩

/-- Counterexample to C6 as stated: with the even kernel size 2 the
derived padding is `(2-1)/2 = 0` and the hidden-to-hidden output
dimension of a size-10 input is 9, not 10. -/
theorem hh_same_padding_fails_even_kernel :
    ¬ (calc_conv_output_dim 10 2 1 ((2 - 1) / 2) 1 = 10) := by decide

/-- C6 (amended): for every positive `n` and every positive **odd**
kernel size `k`, a stride-1 convolution with the derived padding
`(k-1) div 2` preserves the spatial dimension:
`calc_conv_output_dim n k 1 ((k-1)/2) 1 = n`.  (For even `k` the output
is `n - 1`; see the counterexample.) -/
theorem hh_conv_preserves_spatial_size (n k : ℤ) (_hn : 0 < n) (_hk : 0 < k)
    (hodd : k % 2 = 1) :
    calc_conv_output_dim n k 1 ((k - 1) / 2) 1 = n := by
  simp only [calc_conv_output_dim, Int.fdiv_one]
  omega

/-- Witness for the amended C6 at `n = 7`, `k = 5`. -/
theorem hh_conv_preserves_spatial_size_witness :
    (0 : ℤ) < 7 ∧ (0 : ℤ) < 5 ∧ (5 : ℤ) % 2 = 1 ∧
      calc_conv_output_dim 7 5 1 ((5 - 1) / 2) 1 = 7 :=
  ⟨by decide, by decide, by decide,
    hh_conv_preserves_spatial_size 7 5 (by decide) (by decide) (by decide)⟩

/-- C3: after construction, `do_projection` is true iff
`nb_in_chan ≠ nb_out_chan` or `stride > 1`, and the projection
convolution exists exactly when `do_projection` is true. -/
theorem residual_do_projection_iff (nb_in_chan nb_out_chan stride : Nat)
    (bn1 bn2 : BatchNorm2d) (w1 w2 wp : WeightFn) (bp : Nat → ℚ)
    (relu_gain : ℚ) :
    let m := Residual2DPreact.init nb_in_chan nb_out_chan stride bn1 bn2 w1 w2 wp bp relu_gain
    (m.do_projection = true ↔ (nb_in_chan ≠ nb_out_chan ∨ 1 < stride))
      ∧ m.projection.isSome = m.do_projection := by
  intro m
  constructor
  · simp [m, Residual2DPreact.init]
  · show (if ((nb_in_chan != nb_out_chan) || decide (1 < stride)) = true then _ else none).isSome = _
    by_cases h : ((nb_in_chan != nb_out_chan) || decide (1 < stride)) = true <;>
      simp [m, Residual2DPreact.init, h]

/-- C4: `Residual2DPreact.forward x` returns
`conv2(relu(bn2(conv1(relu(bn1 x))))) + projection`, where the projection
is the strided projection convolution applied to the pre-activated input
`relu(bn1 x)` when `do_projection` holds, and the unchanged input `x`
otherwise. -/
theorem residual_forward_eq (nb_in_chan nb_out_chan stride : Nat)
    (bn1 bn2 : BatchNorm2d) (w1 w2 wp : WeightFn) (bp : Nat → ℚ)
    (relu_gain : ℚ) (x : Tensor) :
    let m := Residual2DPreact.init nb_in_chan nb_out_chan stride bn1 bn2 w1 w2 wp bp relu_gain
    let first := tRelu (m.bn1.apply x)
    m.forward x
      = tAdd (m.conv2.apply (tRelu (m.bn2.apply (m.conv1.apply first))))
          (if m.do_projection then
            (Residual2DPreact.mkProjection nb_in_chan nb_out_chan stride wp bp relu_gain).apply first
          else x) := by
  intro m first
  by_cases h : ((nb_in_chan != nb_out_chan) || decide (1 < stride)) = true <;>
    simp [m, first, Residual2DPreact.forward, Residual2DPreact.init, h]

/-- C9: the projection convolution (when created) carries a bias
parameter while `conv1` and `conv2` are built without bias, and the relu
gain scales exactly the three weight arrays, leaving the projection's
default-initialized bias `bp` unscaled. -/
theorem residual_init_bias_and_gain (nb_in_chan nb_out_chan stride : Nat)
    (bn1 bn2 : BatchNorm2d) (w1 w2 wp : WeightFn) (bp : Nat → ℚ)
    (relu_gain : ℚ) :
    let m := Residual2DPreact.init nb_in_chan nb_out_chan stride bn1 bn2 w1 w2 wp bp relu_gain
    let proj := Residual2DPreact.mkProjection nb_in_chan nb_out_chan stride wp bp relu_gain
    m.conv1.bias = none ∧ m.conv2.bias = none
      ∧ m.conv1.weight = scaleW relu_gain w1 ∧ m.conv2.weight = scaleW relu_gain w2
      ∧ m.projection = (if m.do_projection then some proj else none)
      ∧ proj.bias = some bp ∧ proj.weight = scaleW relu_gain wp :=
  ⟨rfl, rfl, rfl, rfl, rfl, rfl, rfl⟩

/-- C5: `forward` computes `preact = ih(x) + hh(h)`, splits it into the
four channel groups (input, forget, output, candidate — in that order),
layer-normalizes each group independently, and returns
`c_t = ln_cell(c*f_t + i_t*g_t)` and `h_t = o_t * tanh(c_t)` (elementwise
products), where `i_t, f_t, o_t, g_t` are the cell's activated gate
values (for the forget gate's activation see C1). -/
theorem convlstm_forward_step (m : ConvLSTMCellLayerNorm)
    (sigmoid tanh : ℚ → ℚ) (hp : Heap) (xr hr cr : Nat) :
    let x := hp.readT xr
    let h := hp.readT hr
    let c := hp.readT cr
    let preact := tAdd (m.ih.apply x) (m.hh.apply h)
    let i_t := tmap sigmoid (m.ln_i_t.apply (chunk4 preact 0))
    let f_t :=
      if m.forget_bias ≠ 0 then
        tmap sigmoid (tmap (fun q => q + m.forget_bias) (m.ln_f_t.apply (chunk4 preact 1)))
      else m.ln_f_t.apply (chunk4 preact 1)
    let o_t := tmap sigmoid (m.ln_o_t.apply (chunk4 preact 2))
    let g_t := tmap tanh (m.ln_g_t.apply (chunk4 preact 3))
    let c_t := m.ln_cell.apply (tAdd (tMul c f_t) (tMul i_t g_t))
    let r := m.forward sigmoid tanh hp xr hr cr
    r.1.readT r.2.2 = c_t ∧ r.1.readT r.2.1 = tMul o_t (tmap tanh c_t) := by
  have hd := m.forward_denotes sigmoid tanh hp xr hr cr
  exact ⟨congrArg Prod.snd hd, congrArg Prod.fst hd⟩

/-- C8: `forward` is deterministic — with the same module parameters,
two calls whose input tensor and previous `(hidden, cell)` state
materialize to the same values (even from different heaps) return
identical `(new hidden, new cell)` outputs. -/
theorem convlstm_forward_deterministic (m : ConvLSTMCellLayerNorm)
    (sigmoid tanh : ℚ → ℚ) (hp1 hp2 : Heap)
    (xr1 hr1 cr1 xr2 hr2 cr2 : Nat)
    (hx : hp1.readT xr1 = hp2.readT xr2)
    (hh : hp1.readT hr1 = hp2.readT hr2)
    (hc : hp1.readT cr1 = hp2.readT cr2) :
    let r1 := m.forward sigmoid tanh hp1 xr1 hr1 cr1
    let r2 := m.forward sigmoid tanh hp2 xr2 hr2 cr2
    r1.1.readT r1.2.1 = r2.1.readT r2.2.1 ∧ r1.1.readT r1.2.2 = r2.1.readT r2.2.2 := by
  intro r1 r2
  have h1 := m.forward_denotes sigmoid tanh hp1 xr1 hr1 cr1
  have h2 := m.forward_denotes sigmoid tanh hp2 xr2 hr2 cr2
  rw [hx, hh, hc] at h1
  have h12 := h1.trans h2.symm
  exact ⟨congrArg Prod.fst h12, congrArg Prod.snd h12⟩

/-- Zero-initialized convolution weights, for concrete witnesses. -/
def zeroW : WeightFn := fun _ _ _ _ => 0

/-- A `1×1×1×1` tensor of zeros. -/
def zeroT : Tensor := ⟨1, 1, 1, 1, fun _ _ _ _ => 0⟩

/-- A `1×1×1×1` tensor of ones. -/
def onesT : Tensor := ⟨1, 1, 1, 1, fun _ _ _ _ => 1⟩

/-- Witness for C8 at a concrete cell, heap and state (both calls read
the same storages; all three input-equality hypotheses hold by `rfl`). -/
theorem convlstm_forward_deterministic_witness :
    let hp : Heap := ⟨0, fun _ => none⟩
    let m := ConvLSTMCellLayerNorm.init (1, 1) 1 1 1 0 0 zeroW zeroW idLN idLN idLN idLN idLN
    let r1 := m.forward id id hp 0 1 2
    (hp.readT 0 = hp.readT 0) ∧
      (r1.1.readT r1.2.1 = r1.1.readT r1.2.1 ∧ r1.1.readT r1.2.2 = r1.1.readT r1.2.2) :=
  ⟨rfl, convlstm_forward_deterministic _ id id _ _ 0 1 2 0 1 2 rfl rfl rfl⟩

/-- C10: `forward` does not mutate its arguments — after the call the
storages of `x`, `h` and `c` hold exactly what they held before, even
though the computation applies `sigmoid_`, `tanh_` and `+=` in place to
intermediate tensors (those all live in storages allocated during the
call, see `forward_frame`). -/
theorem convlstm_forward_no_mutation (m : ConvLSTMCellLayerNorm)
    (sigmoid tanh : ℚ → ℚ) (hp : Heap) (xr hr cr : Nat)
    (hx : xr < hp.next) (hh : hr < hp.next) (hc : cr < hp.next) :
    let hp' := (m.forward sigmoid tanh hp xr hr cr).1
    hp'.readT xr = hp.readT xr ∧ hp'.readT hr = hp.readT hr ∧
      hp'.readT cr = hp.readT cr := by
  refine ⟨?_, ?_, ?_⟩ <;>
    simp only [Heap.readT, ConvLSTMCellLayerNorm.forward_frame m sigmoid tanh hp xr hr cr _ hx,
      ConvLSTMCellLayerNorm.forward_frame m sigmoid tanh hp xr hr cr _ hh,
      ConvLSTMCellLayerNorm.forward_frame m sigmoid tanh hp xr hr cr _ hc]

/-- Witness for C10 on a concrete three-storage heap. -/
theorem convlstm_forward_no_mutation_witness :
    let hp : Heap := ⟨3, fun i => if i = 0 then some zeroT else if i = 1 then some zeroT else if i = 2 then some onesT else none⟩
    let m := ConvLSTMCellLayerNorm.init (1, 1) 1 1 1 0 0 zeroW zeroW idLN idLN idLN idLN idLN
    let hp' := (m.forward id id hp 0 1 2).1
    (0 < 3 ∧ 1 < 3 ∧ 2 < 3) ∧
      (hp'.readT 0 = hp.readT 0 ∧ hp'.readT 1 = hp.readT 1 ∧ hp'.readT 2 = hp.readT 2) :=
  ⟨⟨by decide, by decide, by decide⟩,
    convlstm_forward_no_mutation _ id id _ 0 1 2 (by decide) (by decide) (by decide)⟩

/-- C7: for well-shaped arguments (input of the configured spatial size,
cell state of the precomputed size), the returned hidden and cell states
have identical spatial dimensions, equal to
`hh_input_size = calc_conv_output_dim(input_size[1], kernel_size, stride,
padding, 1)`. -/
theorem convlstm_state_spatial_size (input_size : Nat × Nat)
    (hidden_size kernel_size stride padding : Nat) (forget_bias : ℚ)
    (w_ih w_hh : WeightFn) (lnG lnI lnF lnO lnC : LayerNorm)
    (sigmoid tanh : ℚ → ℚ) (hp : Heap) (xr hr cr : Nat)
    (hxh : (hp.readT xr).height = input_size.2)
    (hxw : (hp.readT xr).width = input_size.2)
    (hch : (hp.readT cr).height = hh_input_size input_size.2 kernel_size stride padding)
    (hcw : (hp.readT cr).width = hh_input_size input_size.2 kernel_size stride padding) :
    let m := ConvLSTMCellLayerNorm.init input_size hidden_size kernel_size stride padding
      forget_bias w_ih w_hh lnG lnI lnF lnO lnC
    let r := m.forward sigmoid tanh hp xr hr cr
    ((r.1.readT r.2.1).height = hh_input_size input_size.2 kernel_size stride padding
      ∧ (r.1.readT r.2.1).width = hh_input_size input_size.2 kernel_size stride padding)
    ∧ ((r.1.readT r.2.2).height = hh_input_size input_size.2 kernel_size stride padding
      ∧ (r.1.readT r.2.2).width = hh_input_size input_size.2 kernel_size stride padding) := by
  intro m r
  have hd := m.forward_denotes sigmoid tanh hp xr hr cr
  have h1 : r.1.readT r.2.1 = (m.pureStep sigmoid tanh (hp.readT xr) (hp.readT hr) (hp.readT cr)).1 :=
    congrArg Prod.fst hd
  have h2 : r.1.readT r.2.2 = (m.pureStep sigmoid tanh (hp.readT xr) (hp.readT hr) (hp.readT cr)).2 :=
    congrArg Prod.snd hd
  rw [h1, h2]
  simp only [ConvLSTMCellLayerNorm.pureStep, tMul, tAdd, tmap, chunk4,
    m.ln_o_t.pres_height, m.ln_o_t.pres_width, m.ln_cell.pres_height, m.ln_cell.pres_width]
  refine ⟨⟨?_, ?_⟩, ?_, ?_⟩
  · show (m.ih.apply (hp.readT xr)).height = _
    simp [Conv2d.apply, Conv2d.outDim, m, ConvLSTMCellLayerNorm.init, hxh]
  · show (m.ih.apply (hp.readT xr)).width = _
    simp [Conv2d.apply, Conv2d.outDim, m, ConvLSTMCellLayerNorm.init, hxw]
  · exact hch
  · exact hcw

/-- A `1×1×3×3` tensor of zeros, for the C7 witness. -/
def sq3T : Tensor := ⟨1, 1, 3, 3, fun _ _ _ _ => 0⟩

/-- Witness for C7 at a concrete cell (`input_size = (1,3)`, kernel 3,
stride 1, padding 1, so `hh_input_size = 3`). -/
theorem convlstm_state_spatial_size_witness :
    let hp : Heap := ⟨3, fun i => if i = 0 then some sq3T else if i = 1 then some sq3T else if i = 2 then some sq3T else none⟩
    let m := ConvLSTMCellLayerNorm.init (1, 3) 1 3 1 1 (1 : ℚ) zeroW zeroW idLN idLN idLN idLN idLN
    let r := m.forward id id hp 0 1 2
    ((hp.readT 0).height = 3 ∧ (hp.readT 2).height = hh_input_size 3 3 1 1) ∧
      (((r.1.readT r.2.1).height = hh_input_size 3 3 1 1
          ∧ (r.1.readT r.2.1).width = hh_input_size 3 3 1 1)
        ∧ ((r.1.readT r.2.2).height = hh_input_size 3 3 1 1
          ∧ (r.1.readT r.2.2).width = hh_input_size 3 3 1 1)) :=
  ⟨⟨rfl, by decide⟩,
    convlstm_state_spatial_size (1, 3) 1 3 1 1 1 zeroW zeroW idLN idLN idLN idLN idLN
      id id _ 0 1 2 rfl rfl (by decide) (by decide)⟩

/-- Modelled from the spec: §4.2 step 4 — normalize the forget gate, add
the bias constant when it is non-zero, then apply sigmoid; with a zero
bias, sigmoid is applied directly to the normalized value.  Identical to
`pureStep` except that sigmoid is applied to the forget gate in *both*
branches. -/
def ConvLSTMCellLayerNorm.specStep (m : ConvLSTMCellLayerNorm)
    (sigmoid tanh : ℚ → ℚ) (x h c : Tensor) : Tensor × Tensor :=
  let preact := tAdd (m.ih.apply x) (m.hh.apply h)
  let i_t := tmap sigmoid (m.ln_i_t.apply (chunk4 preact 0))
  let f_t :=
    if m.forget_bias ≠ 0 then
      tmap sigmoid (tmap (fun q => q + m.forget_bias) (m.ln_f_t.apply (chunk4 preact 1)))
    else tmap sigmoid (m.ln_f_t.apply (chunk4 preact 1))
  let o_t := tmap sigmoid (m.ln_o_t.apply (chunk4 preact 2))
  let g_t := tmap tanh (m.ln_g_t.apply (chunk4 preact 3))
  let c_t := m.ln_cell.apply (tAdd (tMul c f_t) (tMul i_t g_t))
  let h_t := tMul o_t (tmap tanh c_t)
  (h_t, c_t)

/-- A computable sigmoid stand-in with the only property the divergence
below uses, `sigmoidQ 0 = 1/2` (shared with the real sigmoid). -/
def sigmoidQ (q : ℚ) : ℚ := 1 / 2 + q / (2 * (1 + |q|))

/-- A computable tanh stand-in with `tanhQ 0 = 0` (shared with the real
tanh). -/
def tanhQ (q : ℚ) : ℚ := q / (1 + |q|)

/-- A concrete cell with `forget_bias = 0`: one input channel, spatial
size 1, hidden size 1, kernel 1, stride 1, padding 0, zero convolution
weights, identity layer norms. -/
def c1Cell : ConvLSTMCellLayerNorm :=
  ConvLSTMCellLayerNorm.init (1, 1) 1 1 1 0 0 zeroW zeroW idLN idLN idLN idLN idLN

/-- A concrete heap: `x = 0`, `h = 0`, previous cell state `c = 1`. -/
def c1Heap : Heap :=
  ⟨3, fun i => if i = 0 then some zeroT else if i = 1 then some zeroT else
      if i = 2 then some onesT else none⟩

/-- C1 (code bug): with `forget_bias = 0` the code never applies sigmoid
to the layer-normalized forget gate (`sigmoid_()` sits inside the
`if self.forget_bias != 0` branch), so on the concrete input above the
code's new cell state is `1 * lnF(0) = 0`, whereas the spec's step —
sigmoid applied directly to the normalized value — gives
`1 * sigmoid(0) = 1/2`. -/
theorem convlstm_forget_bias_zero_skips_sigmoid :
    (((c1Cell.forward sigmoidQ tanhQ c1Heap 0 1 2).1.readT
        (c1Cell.forward sigmoidQ tanhQ c1Heap 0 1 2).2.2).data 0 0 0 0 = 0)
    ∧ ((c1Cell.specStep sigmoidQ tanhQ zeroT zeroT onesT).2.data 0 0 0 0 = 1 / 2)
    ∧ (0 : ℚ) ≠ 1 / 2 := by
  have hd := c1Cell.forward_denotes sigmoidQ tanhQ c1Heap 0 1 2
  have h2 : (c1Cell.forward sigmoidQ tanhQ c1Heap 0 1 2).1.readT
      (c1Cell.forward sigmoidQ tanhQ c1Heap 0 1 2).2.2
      = (c1Cell.pureStep sigmoidQ tanhQ (c1Heap.readT 0) (c1Heap.readT 1) (c1Heap.readT 2)).2 :=
    congrArg Prod.snd hd
  refine ⟨?_, ?_, by norm_num⟩
  · rw [h2]
    simp [ConvLSTMCellLayerNorm.pureStep, c1Cell, c1Heap, ConvLSTMCellLayerNorm.init,
      Heap.readT, zeroW, zeroT, onesT, tMul, tAdd, tmap, chunk4, Conv2d.apply, padRead,
      idLN, sigmoidQ, tanhQ]
  · simp [ConvLSTMCellLayerNorm.specStep, c1Cell, ConvLSTMCellLayerNorm.init,
      zeroW, zeroT, onesT, tMul, tAdd, tmap, chunk4, Conv2d.apply, padRead,
      idLN, sigmoidQ, tanhQ]
